import Mathlib

/-!
Verification of the e-mail automation core: the rule store, the filter
engine (`src/filters/engine.js`) and the batch processor
(`src/processor/emailProcessor.js`), shallowly embedded in Lean.

Strings model JavaScript strings; `strIncludes hay needle` models
`hay.includes(needle)`; `String.toLower` models `toLowerCase()`.
Fields that may be absent in the JSON configuration are `Option`s, and
`Option.getD` models the `x || default` idiom on them.  Collaborator
calls that can throw are modelled with `Except String`; the thrown
value is the exception's message.
-/

namespace EmailAutomation

/-- `subAt needle hay` : does `hay` start with `needle`?  (Models the
inner step of JavaScript `String.prototype.includes`.) -/
def subAt : List Char → List Char → Bool
  | [], _ => true
  | _ :: _, [] => false
  | a :: as, b :: bs => a == b && subAt as bs

/-- `hasSub needle hay` : does `needle` occur contiguously in `hay`? -/
def hasSub (needle : List Char) : List Char → Bool
  | [] => needle.isEmpty
  | b :: bs => subAt needle (b :: bs) || hasSub needle bs

/-- Model of JavaScript `hay.includes(needle)`. -/
def strIncludes (hay needle : String) : Bool :=
  hasSub needle.data hay.data

/-- Model of JavaScript `toLowerCase()`: lower-case every character.
(Equivalent to `String.toLower`, but defined by a structural map over
the character list so that the kernel can evaluate it.) -/
def toLowerCase (s : String) : String :=
  ⟨s.data.map Char.toLower⟩

/-- A message as the processor sees it (`from`, `subject`, `body`; the
other fields are not read by the core). -/
structure Message where
  id : String
  «from» : String
  subject : String
  body : String
deriving Repr, DecidableEq

/-- The `conditions` object of a rule in `config/rules.json`. -/
structure Conditions where
  keywords : Option (List String)
  mustMatch : Option String
deriving Repr, DecidableEq

/-- A rule in `config/rules.json`. -/
structure Rule where
  id : String
  enabled : Bool
  conditions : Conditions
  context : String
deriving Repr, DecidableEq

/-- The `ignore_rules` object of `config/rules.json`. -/
structure IgnoreRules where
  ignore_senders : Option (List String)
  ignore_subject_contains : Option (List String)
deriving Repr, DecidableEq

/-- The parsed contents of `config/rules.json`. -/
structure RulesData where
  ignore_rules : Option IgnoreRules
  rules : Option (List Rule)
deriving Repr, DecidableEq

/-- `loadRules`, with the module-level cache passed explicitly: returns
the loaded data together with the new cache.  `readSource` is the
outcome of `JSON.parse(fs.readFileSync(RULES_PATH))`, which throws on a
missing or malformed file; the throw propagates (there is no handler in
`loadRules`). -/
def loadRules (rulesCache : Option RulesData)
    (readSource : Except String RulesData) :
    Except String (RulesData × Option RulesData) :=
  match rulesCache with
  | some cached => .ok (cached, some cached)
  | none =>
    match readSource with
    | .error e => .error e
    | .ok rulesData => .ok (rulesData, some rulesData)

/-- `reloadRules`: set the cache to `null`, then `loadRules`. -/
def reloadRules (_rulesCache : Option RulesData)
    (readSource : Except String RulesData) :
    Except String (RulesData × Option RulesData) :=
  loadRules none readSource

/-- `getIgnoreRules`: `data.ignore_rules || {}`. -/
def getIgnoreRules (data : RulesData) : IgnoreRules :=
  data.ignore_rules.getD ⟨none, none⟩

/-- `shouldIgnoreSender`. -/
def shouldIgnoreSender (data : RulesData) (emailFrom : String) : Bool :=
  let ignoreSenders := (getIgnoreRules data).ignore_senders.getD []
  let lowerFrom := toLowerCase emailFrom
  ignoreSenders.any fun sender => strIncludes lowerFrom (toLowerCase sender)

/-- `shouldIgnoreBySubject`. -/
def shouldIgnoreBySubject (data : RulesData) (emailSubject : String) : Bool :=
  let ignoreSubjects := (getIgnoreRules data).ignore_subject_contains.getD []
  let lowerSubject := toLowerCase emailSubject
  ignoreSubjects.any fun phrase => strIncludes lowerSubject (toLowerCase phrase)

/-- `shouldIgnoreEmail`. -/
def shouldIgnoreEmail (data : RulesData) (email : Message) : Bool :=
  if shouldIgnoreSender data email.«from» then true
  else if shouldIgnoreBySubject data email.subject then true
  else false

/-- `checkKeywordMatch(emailBody, keywords, mustMatch = 'any')`.  The
default-parameter value `'any'` applies when `mustMatch` is absent. -/
def checkKeywordMatch (emailBody : String) (keywords : List String)
    (mustMatch : Option String) : Bool :=
  let lowerBody := toLowerCase emailBody
  if mustMatch.getD "any" = "all" then
    keywords.all fun keyword => strIncludes lowerBody (toLowerCase keyword)
  else
    keywords.any fun keyword => strIncludes lowerBody (toLowerCase keyword)

/-- `evaluateRule`: a disabled rule never matches; a rule whose
`conditions.keywords` is absent or empty never matches; otherwise the
keywords are checked against `subject + " " + body`. -/
def evaluateRule (rule : Rule) (email : Message) : Bool :=
  if !rule.enabled then false
  else
    match rule.conditions.keywords with
    | some keywords =>
      if keywords.length > 0 then
        checkKeywordMatch (email.subject ++ " " ++ email.body) keywords
          rule.conditions.mustMatch
      else false
    | none => false

/-- `getMatchingRules`: filter of `data.rules || []` by `evaluateRule`.
(The rules data is passed explicitly; in the source it comes from the
cached `loadRules()`.) -/
def getMatchingRules (data : RulesData) (email : Message) : List Rule :=
  (data.rules.getD []).filter fun rule => evaluateRule rule email

/-- `shouldProcessEmail`. -/
def shouldProcessEmail (data : RulesData) (email : Message) : Bool :=
  if shouldIgnoreEmail data email then false
  else (getMatchingRules data email).length > 0

/-- `buildContextFromRules`. -/
def buildContextFromRules (data : RulesData) (email : Message) : String :=
  let matchingRules := getMatchingRules data email
  if matchingRules.length = 0 then "This is an email message"
  else String.intercalate ". " (matchingRules.map fun rule => rule.context)

/-- Per-message terminal state of `processEmail` (`result.status` plus
the fields the source attaches to it). -/
inductive EmailResult where
  | success (sender subject : String) (responseLength : Nat)
  | skipped (reason : String)
  | failed (reason : String)
  | error (reason : String)
deriving Repr, DecidableEq

/-- A mailbox-mutating call made by `processEmail`, in call order. -/
inductive Action where
  | sendReply (id response : String)
  | markAsRead (id : String)
  | addLabel (id label : String)
deriving Repr, DecidableEq

/-- The collaborators `processEmail` calls, as response functions: what
each call returns (`.ok`) or throws (`.error`, carrying the exception's
message), plus the `MARK_AS_READ_AFTER_REPLY === 'true'` flag. -/
structure Env where
  generatePersonalizedResponse : Message → String → Except String (Option String)
  sendReply : String → String → Except String Unit
  markAsRead : String → Except String Unit
  addLabel : String → String → Except String Unit
  markAsReadAfterReply : Bool

/-- JavaScript truthiness of the generator's result: `null`/`undefined`
and the empty string are falsy, so `if (!response)` takes the failed
branch exactly when this is `false`. -/
def usableResponse : Option String → Bool
  | none => false
  | some s => s ≠ ""

/-- `processEmail`, returning the terminal result together with the
trace of mailbox-mutating calls made (each call is recorded when it is
issued, whether or not it then throws).  `src` is what the engine's
`loadRules()` yields when the filter functions call it: the throw of a
missing/malformed configuration read surfaces here and is caught by the
surrounding `try`/`catch`, like every other exception. -/
def processEmail (env : Env) (src : Except String RulesData)
    (email : Message) : EmailResult × List Action :=
  match src with
  | .error e => (.error e, [])
  | .ok data =>
    if !shouldProcessEmail data email then
      (.skipped "no_matching_rules", [])
    else
      let context := buildContextFromRules data email
      match env.generatePersonalizedResponse email context with
      | .error e => (.error e, [])
      | .ok response =>
        if !usableResponse response then
          (.failed "response_generation_failed", [])
        else
          let text := response.getD ""
          match env.sendReply email.id text with
          | .error e => (.error e, [.sendReply email.id text])
          | .ok _ =>
            let afterSend : List Action := [.sendReply email.id text]
            let (markOutcome, afterMark) :=
              if env.markAsReadAfterReply then
                (env.markAsRead email.id, afterSend ++ [.markAsRead email.id])
              else (.ok (), afterSend)
            match markOutcome with
            | .error e => (.error e, afterMark)
            | .ok _ =>
              let afterLabel := afterMark ++ [.addLabel email.id "AutoReplied"]
              match env.addLabel email.id "AutoReplied" with
              | .error e => (.error e, afterLabel)
              | .ok _ =>
                (.success email.«from» email.subject text.length, afterLabel)

/-- Aggregate counters returned by `processBatch`. -/
structure BatchResult where
  total : Nat
  processed : Nat
  skipped : Nat
  failed : Nat
deriving Repr, DecidableEq

/-- One step of `processBatch`'s accumulation: `success` increments
`processed`, `skipped` increments `skipped`, everything else
(`failed` and `error`) increments `failed`. -/
def countResult (results : BatchResult) (result : EmailResult) : BatchResult :=
  match result with
  | .success _ _ _ => { results with processed := results.processed + 1 }
  | .skipped _ => { results with skipped := results.skipped + 1 }
  | _ => { results with failed := results.failed + 1 }

/-- `processBatch`: sequential fold over the messages in input order,
starting from `total = emails.length` and zero counters. -/
def processBatch (env : Env) (src : Except String RulesData)
    (emails : List Message) : BatchResult :=
  emails.foldl
    (fun results email => countResult results (processEmail env src email).1)
    { total := emails.length, processed := 0, skipped := 0, failed := 0 }

/-- Does the result's `status` equal `'success'`? -/
def isSuccess : EmailResult → Bool
  | .success _ _ _ => true
  | _ => false

/-- Does the result's `status` equal `'skipped'`? -/
def isSkippedResult : EmailResult → Bool
  | .skipped _ => true
  | _ => false

/-- Does the result land in the `else` branch of the batch counter,
i.e. is it `failed` or `error`? -/
def isFailureResult : EmailResult → Bool
  | .failed _ => true
  | .error _ => true
  | _ => false

/-! ## Spec-side matching predicate (for the refinement claim) -/

/-- Transcription of the spec's matching condition, for comparison with
`evaluateRule`: enabled, and against the lower-cased
`subject + " " + body`, with `matchMode = ALL` every keyword must occur
as a case-insensitive substring, otherwise (`ANY` or unspecified) at
least one must; a rule with an absent or empty keyword list never
matches. -/
def specRuleMatches (email : Message) (rule : Rule) : Bool :=
  let content := toLowerCase (email.subject ++ " " ++ email.body)
  rule.enabled &&
    match rule.conditions.keywords with
    | none => false
    | some [] => false
    | some keywords =>
      if rule.conditions.mustMatch = some "all" then
        keywords.all fun keyword => strIncludes content (toLowerCase keyword)
      else
        keywords.any fun keyword => strIncludes content (toLowerCase keyword)

/-! ## Helper lemmas -/

theorem hasSub_nil : ∀ l : List Char, hasSub [] l = true
  | [] => rfl
  | _ :: bs => by
    unfold hasSub subAt
    simp

/-- The empty string is a substring of every string. -/
theorem strIncludes_empty (s : String) : strIncludes s "" = true :=
  hasSub_nil s.data

theorem evaluateRule_eq_spec (rule : Rule) (email : Message) :
    evaluateRule rule email = specRuleMatches email rule := by
  unfold evaluateRule specRuleMatches checkKeywordMatch
  cases he : rule.enabled
  · simp
  · cases hk : rule.conditions.keywords with
    | none => simp
    | some keywords =>
      cases keywords with
      | nil => simp
      | cons k ks =>
        cases hm : rule.conditions.mustMatch with
        | none => simp
        | some m =>
          by_cases hall : m = "all" <;> simp [hall]

end EmailAutomation

namespace EmailAutomation

/-! ## Claims about the filter engine -/

/-- C1: for every message and rule set, `getMatchingRules` returns
exactly the rules, in the rule set's declared order, that are enabled
and whose keyword condition holds against the lower-cased
`subject ++ " " ++ body` (ALL: every keyword occurs case-insensitively;
ANY or unspecified: at least one occurs); a rule with an empty or
absent keyword list is never returned. -/
theorem getMatchingRules_spec (data : RulesData) (email : Message) :
    getMatchingRules data email =
      (data.rules.getD []).filter (specRuleMatches email) := by
  unfold getMatchingRules
  congr 1
  funext rule
  exact evaluateRule_eq_spec rule email

/-- C2 counterexample: with a single matching rule whose `context` is
the literal fallback text, `buildContextFromRules` returns
`"This is an email message"` even though `getMatchingRules` is
non-empty, so the claimed "if and only if" fails. -/
theorem buildContext_fallback_not_iff :
    buildContextFromRules
        { ignore_rules := none
        , rules := some [{ id := "r1", enabled := true
                         , conditions := { keywords := some ["a"], mustMatch := none }
                         , context := "This is an email message" }] }
        { id := "m1", «from» := "alice@example.com", subject := "a", body := "" }
      = "This is an email message" ∧
    getMatchingRules
        { ignore_rules := none
        , rules := some [{ id := "r1", enabled := true
                         , conditions := { keywords := some ["a"], mustMatch := none }
                         , context := "This is an email message" }] }
        { id := "m1", «from» := "alice@example.com", subject := "a", body := "" }
      ≠ [] := by
  constructor
  · rfl
  · decide

/-- C2 (amended): if `getMatchingRules` is empty then
`buildContextFromRules` returns the literal fallback
`"This is an email message"`; if it is non-empty the result is the
matching rules' `context` fields joined by `". "` in declared order
(which may incidentally coincide with the fallback text). -/
theorem buildContext_correct (data : RulesData) (email : Message) :
    (getMatchingRules data email = [] →
      buildContextFromRules data email = "This is an email message") ∧
    (getMatchingRules data email ≠ [] →
      buildContextFromRules data email =
        String.intercalate ". " ((getMatchingRules data email).map Rule.context)) := by
  constructor <;> intro h <;> unfold buildContextFromRules
  · simp [h]
  · have hlen : (getMatchingRules data email).length ≠ 0 := by
      simpa [List.length_eq_zero] using h
    simp [hlen]

theorem buildContext_correct_witness :
    buildContextFromRules { ignore_rules := none, rules := none }
        { id := "m1", «from» := "a@b", subject := "s", body := "b" }
      = "This is an email message" :=
  (buildContext_correct { ignore_rules := none, rules := none }
      { id := "m1", «from» := "a@b", subject := "s", body := "b" }).1 (by decide)

/-- C3: `shouldIgnoreEmail` is true exactly when the sender contains
some `ignore_senders` entry or the subject contains some
`ignore_subject_contains` entry, case-insensitively; an ignored message
is never processed, whatever the rules would say; and for a
non-ignored message `shouldProcessEmail` holds iff `getMatchingRules`
is non-empty. -/
theorem shouldProcess_spec (data : RulesData) (email : Message) :
    (shouldIgnoreEmail data email = true ↔
      (∃ s ∈ (getIgnoreRules data).ignore_senders.getD [],
        strIncludes (toLowerCase email.«from») (toLowerCase s) = true) ∨
      (∃ p ∈ (getIgnoreRules data).ignore_subject_contains.getD [],
        strIncludes (toLowerCase email.subject) (toLowerCase p) = true)) ∧
    (shouldIgnoreEmail data email = true → shouldProcessEmail data email = false) ∧
    (shouldIgnoreEmail data email = false →
      (shouldProcessEmail data email = true ↔ getMatchingRules data email ≠ [])) := by
  refine ⟨?_, ?_, ?_⟩
  · have hsplit : shouldIgnoreEmail data email =
        (shouldIgnoreSender data email.«from» ||
          shouldIgnoreBySubject data email.subject) := by
      unfold shouldIgnoreEmail
      cases shouldIgnoreSender data email.«from» <;>
        cases shouldIgnoreBySubject data email.subject <;> simp
    rw [hsplit, Bool.or_eq_true]
    unfold shouldIgnoreSender shouldIgnoreBySubject
    simp [List.any_eq_true]
  · intro h
    unfold shouldProcessEmail
    simp [h]
  · intro h
    unfold shouldProcessEmail
    simp [h, List.length_pos]

theorem shouldProcess_spec_witness :
    shouldProcessEmail
        { ignore_rules := some { ignore_senders := some ["noreply"]
                               , ignore_subject_contains := none }
        , rules := some [{ id := "r1", enabled := true
                         , conditions := { keywords := some ["help"], mustMatch := none }
                         , context := "Support" }] }
        { id := "m1", «from» := "noreply@foo.com", subject := "help", body := "" }
      = false :=
  (shouldProcess_spec _ _).2.1 (by decide)

/-- C8: `loadRules` with a populated cache returns the cached data and
leaves the cache unchanged, whatever the configuration source currently
holds (so a source edit is invisible until reload); with an empty cache
it reads the source, stores the parsed data in the cache and returns
it; and `reloadRules` clears the cache and then behaves as `loadRules`,
so its result reflects the current source contents. -/
theorem ruleStore_cache_spec (data fresh : RulesData)
    (src : Except String RulesData) (cache : Option RulesData) :
    loadRules (some data) src = .ok (data, some data) ∧
    loadRules none (.ok fresh) = .ok (fresh, some fresh) ∧
    reloadRules cache src = loadRules none src ∧
    reloadRules cache (.ok fresh) = .ok (fresh, some fresh) :=
  ⟨rfl, rfl, rfl, rfl⟩

/-- C10: an enabled rule whose keyword list contains the empty string
matches every message when its `mustMatch` is `"any"` or unspecified:
the empty string is a substring of everything, and the no-keywords
guard only excludes an empty or absent keyword list. -/
theorem emptyString_keyword_matches (data : RulesData) (email : Message)
    (rule : Rule)
    (hmem : rule ∈ data.rules.getD [])
    (hen : rule.enabled = true)
    (hkw : "" ∈ rule.conditions.keywords.getD [])
    (hmode : rule.conditions.mustMatch = some "any" ∨
      rule.conditions.mustMatch = none) :
    rule ∈ getMatchingRules data email := by
  unfold getMatchingRules
  rw [List.mem_filter]
  refine ⟨hmem, ?_⟩
  unfold evaluateRule
  cases hk : rule.conditions.keywords with
  | none => rw [hk] at hkw; simp at hkw
  | some keywords =>
    rw [hk] at hkw
    simp only [Option.getD_some] at hkw
    have hlen : keywords.length > 0 :=
      List.length_pos.mpr (List.ne_nil_of_mem hkw)
    have hmm : rule.conditions.mustMatch.getD "any" ≠ "all" := by
      rcases hmode with h | h <;> simp [h]
    unfold checkKeywordMatch
    simp [hen, hlen, hmm, List.any_eq_true]
    refine ⟨"", hkw, ?_⟩
    have h0 : toLowerCase "" = "" := rfl
    rw [h0]
    exact strIncludes_empty _

theorem emptyString_keyword_matches_witness :
    ({ id := "r1", enabled := true
     , conditions := { keywords := some [""], mustMatch := none }
     , context := "c" } : Rule) ∈
      getMatchingRules
        { ignore_rules := none
        , rules := some [{ id := "r1", enabled := true
                         , conditions := { keywords := some [""], mustMatch := none }
                         , context := "c" }] }
        { id := "m1", «from» := "a@b", subject := "s", body := "b" } :=
  emptyString_keyword_matches _ _ _ (by decide) (by decide) (by decide)
    (Or.inr rfl)

/-! ## Batch counting lemmas -/

theorem countResult_foldl (env : Env) (src : Except String RulesData) :
    ∀ (emails : List Message) (init : BatchResult),
      emails.foldl
          (fun results email =>
            countResult results (processEmail env src email).1) init =
        { total := init.total
        , processed := init.processed +
            emails.countP fun e => isSuccess (processEmail env src e).1
        , skipped := init.skipped +
            emails.countP fun e => isSkippedResult (processEmail env src e).1
        , failed := init.failed +
            emails.countP fun e => isFailureResult (processEmail env src e).1 }
  | [], init => by simp
  | email :: rest, init => by
    rw [List.foldl_cons, countResult_foldl env src rest]
    cases h : (processEmail env src email).1 <;>
      simp [countResult, h, List.countP_cons, isSuccess, isSkippedResult,
        isFailureResult] <;>
      omega

theorem processBatch_eq_counts (env : Env) (src : Except String RulesData)
    (emails : List Message) :
    processBatch env src emails =
      { total := emails.length
      , processed := emails.countP fun e => isSuccess (processEmail env src e).1
      , skipped :=
          emails.countP fun e => isSkippedResult (processEmail env src e).1
      , failed :=
          emails.countP fun e => isFailureResult (processEmail env src e).1 } := by
  unfold processBatch
  rw [countResult_foldl]
  simp

theorem outcome_partition (env : Env) (src : Except String RulesData) :
    ∀ emails : List Message,
      (emails.countP fun e => isSuccess (processEmail env src e).1) +
        (emails.countP fun e => isSkippedResult (processEmail env src e).1) +
        (emails.countP fun e => isFailureResult (processEmail env src e).1) =
        emails.length
  | [] => by simp
  | email :: rest => by
    have ih := outcome_partition env src rest
    cases h : (processEmail env src email).1 <;>
      simp [List.countP_cons, h, isSuccess, isSkippedResult, isFailureResult]
        at ih ⊢ <;>
      omega

/-! ## Claims about the batch processor -/

/-- C4: `processBatch` returns `total` equal to the input length,
`processed` counting exactly the `success` outcomes, `skipped` counting
exactly the `skipped` outcomes, and `failed` counting exactly the
`failed`-or-`error` outcomes; on the empty list it returns all zeros. -/
theorem processBatch_counts (env : Env) (src : Except String RulesData)
    (emails : List Message) :
    (processBatch env src emails).total = emails.length ∧
    (processBatch env src emails).processed =
      (emails.countP fun e => isSuccess (processEmail env src e).1) ∧
    (processBatch env src emails).skipped =
      (emails.countP fun e => isSkippedResult (processEmail env src e).1) ∧
    (processBatch env src emails).failed =
      (emails.countP fun e => isFailureResult (processEmail env src e).1) ∧
    processBatch env src [] =
      { total := 0, processed := 0, skipped := 0, failed := 0 } := by
  rw [processBatch_eq_counts, processBatch_eq_counts]
  simp

/-- C9: each message contributes to exactly one of the three outcome
counters, so `processed + skipped + failed = total` for every batch. -/
theorem processBatch_counter_partition (env : Env)
    (src : Except String RulesData) (emails : List Message) :
    (processBatch env src emails).processed +
      (processBatch env src emails).skipped +
      (processBatch env src emails).failed =
      (processBatch env src emails).total := by
  rw [processBatch_eq_counts]
  exact outcome_partition env src emails


/-- C5: if a message passes filtering but the generated response is
unusable (null or empty), `processEmail` returns
`failed` / `"response_generation_failed"` and makes no reply-send,
mark-as-read, or label call (empty action trace). -/
theorem generation_failure_no_calls (env : Env) (data : RulesData)
    (email : Message) (response : Option String)
    (hp : shouldProcessEmail data email = true)
    (hg : env.generatePersonalizedResponse email
        (buildContextFromRules data email) = .ok response)
    (hu : usableResponse response = false) :
    processEmail env (.ok data) email =
      (.failed "response_generation_failed", []) := by
  unfold processEmail
  simp [hp, hg, hu]

theorem generation_failure_no_calls_witness :
    processEmail
        { generatePersonalizedResponse := fun _ _ => .ok none
        , sendReply := fun _ _ => .ok ()
        , markAsRead := fun _ => .ok ()
        , addLabel := fun _ _ => .ok ()
        , markAsReadAfterReply := false }
        (.ok { ignore_rules := none
             , rules := some [{ id := "r1", enabled := true
                              , conditions := { keywords := some ["help"]
                                              , mustMatch := none }
                              , context := "Support" }] })
        { id := "m1", «from» := "a@b", subject := "help", body := "" }
      = (.failed "response_generation_failed", []) :=
  generation_failure_no_calls _ _ _ none (by decide) rfl rfl

/-- C6: a thrown exception — a generator exception on one message, a
mailbox send failure on another — yields the per-message `error`
outcome carrying the exception's message, and `processBatch` keeps
going: with an erroring message spliced into any batch, every other
message's contribution to the counters is unchanged and the tail is
still processed. -/
theorem message_error_isolation (env : Env) (data : RulesData)
    (email₁ email₂ : Message) (e₁ e₂ text : String) (l₁ l₂ : List Message)
    (hp₁ : shouldProcessEmail data email₁ = true)
    (hg₁ : env.generatePersonalizedResponse email₁
        (buildContextFromRules data email₁) = .error e₁)
    (hp₂ : shouldProcessEmail data email₂ = true)
    (hg₂ : env.generatePersonalizedResponse email₂
        (buildContextFromRules data email₂) = .ok (some text))
    (ht : text ≠ "")
    (hs : env.sendReply email₂.id text = .error e₂) :
    (processEmail env (.ok data) email₁).1 = .error e₁ ∧
    (processEmail env (.ok data) email₂).1 = .error e₂ ∧
    processBatch env (.ok data) (l₁ ++ email₁ :: l₂) =
      { total := l₁.length + (1 + l₂.length)
      , processed :=
          (l₁.countP fun e => isSuccess (processEmail env (.ok data) e).1) +
            (l₂.countP fun e => isSuccess (processEmail env (.ok data) e).1)
      , skipped :=
          (l₁.countP fun e => isSkippedResult (processEmail env (.ok data) e).1) +
            (l₂.countP fun e => isSkippedResult (processEmail env (.ok data) e).1)
      , failed :=
          (l₁.countP fun e => isFailureResult (processEmail env (.ok data) e).1) +
            (1 + (l₂.countP fun e =>
              isFailureResult (processEmail env (.ok data) e).1)) } := by
  have h1 : (processEmail env (.ok data) email₁).1 = .error e₁ := by
    unfold processEmail
    simp [hp₁, hg₁]
  have h2 : (processEmail env (.ok data) email₂).1 = .error e₂ := by
    unfold processEmail
    simp [hp₂, hg₂, usableResponse, ht, hs]
  refine ⟨h1, h2, ?_⟩
  have hsucc : isSuccess (processEmail env (.ok data) email₁).1 = false := by
    rw [h1]; rfl
  have hskip : isSkippedResult (processEmail env (.ok data) email₁).1 = false := by
    rw [h1]; rfl
  have hfail : isFailureResult (processEmail env (.ok data) email₁).1 = true := by
    rw [h1]; rfl
  rw [processBatch_eq_counts]
  simp [List.countP_cons, hsucc, hskip, hfail]
  omega

theorem message_error_isolation_witness :
    (processEmail
        { generatePersonalizedResponse := fun m _ =>
            if m.id = "1" then .error "gen boom" else .ok (some "Hi")
        , sendReply := fun _ _ => .error "send boom"
        , markAsRead := fun _ => .ok ()
        , addLabel := fun _ _ => .ok ()
        , markAsReadAfterReply := false }
        (.ok { ignore_rules := none
             , rules := some [{ id := "r1", enabled := true
                              , conditions := { keywords := some ["help"]
                                              , mustMatch := none }
                              , context := "Support" }] })
        { id := "1", «from» := "a@b", subject := "help", body := "" }).1
      = .error "gen boom" :=
  (message_error_isolation _ _
    { id := "1", «from» := "a@b", subject := "help", body := "" }
    { id := "2", «from» := "c@d", subject := "help", body := "" }
    "gen boom" "send boom" "Hi" [] []
    (by decide) rfl (by decide) rfl (by decide) rfl).1

/-- C7 counterexample: with a missing/malformed configuration source,
the read/parse throw raised inside the filter engine is caught by
`processEmail`'s `try`/`catch` and recorded as that message's `error`
outcome, and the batch continues over the remaining messages — it is
absorbed per message, not escalated past per-message handling. -/
theorem ruleStore_failure_absorbed :
    (processEmail
        { generatePersonalizedResponse := fun _ _ => .ok (some "Hi")
        , sendReply := fun _ _ => .ok ()
        , markAsRead := fun _ => .ok ()
        , addLabel := fun _ _ => .ok ()
        , markAsReadAfterReply := false }
        (.error "SyntaxError: Unexpected token")
        { id := "m1", «from» := "a@b", subject := "help", body := "" }).1
      = .error "SyntaxError: Unexpected token" ∧
    processBatch
        { generatePersonalizedResponse := fun _ _ => .ok (some "Hi")
        , sendReply := fun _ _ => .ok ()
        , markAsRead := fun _ => .ok ()
        , addLabel := fun _ _ => .ok ()
        , markAsReadAfterReply := false }
        (.error "SyntaxError: Unexpected token")
        [ { id := "m1", «from» := "a@b", subject := "help", body := "" }
        , { id := "m2", «from» := "c@d", subject := "help", body := "" } ]
      = { total := 2, processed := 0, skipped := 0, failed := 2 } := by
  constructor <;> rfl

/-- C7 (amended): `loadRules` propagates a read/parse failure to its
caller and never silently defaults to an empty rule set; when batch
processing is running, that failure is caught by the per-message
handler and becomes each message's `error` outcome, and the batch
continues to completion over all messages. -/
theorem ruleStore_failure_handling (env : Env) (e : String)
    (email : Message) (emails : List Message) :
    loadRules none (.error e) = .error e ∧
    (processEmail env (.error e) email).1 = .error e ∧
    processBatch env (.error e) emails =
      { total := emails.length, processed := 0, skipped := 0
      , failed := emails.length } := by
  refine ⟨rfl, rfl, ?_⟩
  rw [processBatch_eq_counts]
  simp [processEmail, isSuccess, isSkippedResult, isFailureResult]
